import Mathlib

/-!
Verification of the survey-data analysis app (`anketo_app.py`).

We shallowly embed the statistical decision engine of the app: the column
classifier, the descriptive summarizer, the cross-tabulator, the group
comparator (routing on group count, post-hoc gating) and the paired
comparator.  Numeric cell values are modelled as rationals; a pandas `NaN`
(missing entry) is modelled with `Option`, and a `NaN` produced as a
*result* of a float computation (e.g. `ttest_rel` on a single pair) is
modelled by the `PVal.nan` constructor.  p-values returned by SciPy
routines whose computation involves transcendental distribution functions
(normal / t / F / chi-square survival functions, the Tukey and Dunn
post-hoc tables) are taken as parameters of the embedding; every piece of
branching, filtering, counting and rank arithmetic that the app itself
performs is embedded executably.
-/

namespace Anketo

/-- A float p-value as the app sees it: either a real number (modelled as a
rational) or IEEE `NaN`.  SciPy returns `nan` e.g. for a paired t-test on a
single pair. -/
inductive PVal where
  | nan : PVal
  | val (q : ℚ) : PVal
deriving DecidableEq

/-- The float comparison `p < t` used in the app's `if p < 0.05:` guards.
IEEE semantics: any comparison with `NaN` is false. -/
def pvalLt (p : PVal) (t : ℚ) : Bool :=
  match p with
  | .nan => false
  | .val q => decide (q < t)

/-- Conclusion label attached to every test result. -/
inductive Conclusion where
  | significant
  | notSignificant
deriving DecidableEq

/-- Conclusion labeling used identically at every test site of the app
(lines 421, 462, 481, 528): `if p < 0.05:` significant `else` not. -/
def conclude (p : PVal) : Conclusion :=
  if pvalLt p (5/100) then .significant else .notSignificant

/-- The error kinds of the specification's error taxonomy (§7).  The app's
code surfaces only some of them; the constructors are needed to state the
spec's error-handling claims against the code. -/
inductive ErrorKind where
  | emptySelection
  | invalidColumn
  | insufficientGroups
  | columnIdentity
  | mismatchedPairLength
  | emptyAfterAlignment
  | degenerateTest
deriving DecidableEq

/-! ## Column classifier (tab setup, lines 194–195)

`numeric_cols = df.select_dtypes(include=np.number)`,
`cat_cols = df.select_dtypes(include=["object","category"])`.

The dtype of each column is fixed by `pd.read_csv` (the ingestion black box
of the spec): a CSV column gets a numeric dtype exactly when every
non-missing field parses as a number, and `object` dtype otherwise.  We
model a raw cell accordingly. -/

/-- One cell of an ingested column: missing (`NaN`), a value that parsed as
a number, or a non-numeric string. -/
inductive Cell where
  | missing
  | num (q : ℚ)
  | str (s : String)
deriving DecidableEq

/-- A dataset: named columns in order, each a list of cells. -/
abbrev Dataset := List (String × List Cell)

/-- `pd.read_csv` dtype inference for one column: numeric iff all
non-missing cells parsed as numbers. -/
def colIsNumeric (cells : List Cell) : Bool :=
  cells.all fun c =>
    match c with
    | .missing => true
    | .num _ => true
    | .str _ => false

/-- `df.select_dtypes(include=np.number).columns.tolist()`. -/
def numericCols (df : Dataset) : List String :=
  (df.filter fun c => colIsNumeric c.2).map Prod.fst

/-- `df.select_dtypes(include=["object","category"]).columns.tolist()`. -/
def catCols (df : Dataset) : List String :=
  (df.filter fun c => !colIsNumeric c.2).map Prod.fst

/-! ## Descriptive summarizer (tab 1, lines 204–211)

`desc = df[selected].describe().T; desc["median"] = df[selected].median()`.
pandas drops missing values per column independently; `std` uses the
sample (ddof = 1) denominator; percentiles use linear interpolation. -/

/-- The non-missing values of a numeric column (pandas drops `NaN` per
column when computing `describe()` and `median()`). -/
def colValues (cells : List (Option ℚ)) : List ℚ :=
  cells.filterMap id

/-- Arithmetic mean (junk value `0/0 = 0` on the empty column, where pandas
would give `NaN`; no claim touches that case). -/
def listMean (l : List ℚ) : ℚ :=
  l.sum / l.length

/-- pandas quantile with linear interpolation: position `h = p·(n−1)`
between the order statistics. -/
def quantile (l : List ℚ) (p : ℚ) : ℚ :=
  let s := l.insertionSort (· ≤ ·)
  let n := s.length
  if n = 0 then 0
  else
    let h : ℚ := p * (n - 1)
    let i : ℕ := h.floor.toNat
    let lo := s.getD i 0
    let hi := s.getD (i + 1) lo
    lo + (h - i) * (hi - lo)

/-- `Series.median()`: the 0.5 quantile with linear interpolation. -/
def medianQ (l : List ℚ) : ℚ :=
  quantile l (1/2)

/-- Sample variance (ddof = 1), the square of `describe()`'s `std`;
`NaN` when fewer than two values, as in pandas. -/
def smpVar (l : List ℚ) : PVal :=
  if l.length < 2 then .nan
  else .val (((l.map fun x => (x - listMean l) ^ 2).sum) / (l.length - 1))

/-- One row of `describe().T` with the appended `median` column.  `std` is
represented by its square `var` so the embedding stays rational. -/
structure DescRow where
  count : ℕ
  mean : ℚ
  var : PVal
  min : ℚ
  q25 : ℚ
  q50 : ℚ
  q75 : ℚ
  max : ℚ
  median : ℚ
deriving DecidableEq

/-- The summary row of one column. -/
def descRow (cells : List (Option ℚ)) : DescRow :=
  let l := colValues cells
  { count := l.length
    mean := listMean l
    var := smpVar l
    min := quantile l 0
    q25 := quantile l (1/4)
    q50 := quantile l (1/2)
    q75 := quantile l (3/4)
    max := quantile l 1
    median := medianQ l }

/-- What tab 1 renders for a selection.  The app's only guard is
`if selected_cols_desc:` — an empty selection renders nothing at all; the
`errorMsg` constructor exists to state the spec's `EmptySelection` claim
and is never produced by the embedded code. -/
inductive DescDisplay where
  | summary (table : List (String × DescRow))
  | errorMsg (e : ErrorKind)
  | noOutput
deriving DecidableEq

/-- Tab 1: `if selected_cols_desc:` compute `describe().T` plus `median`,
else render nothing. -/
def descTab (selected : List String) (data : List (String × List (Option ℚ))) :
    DescDisplay :=
  if selected.isEmpty then .noOutput
  else .summary (selected.map fun n =>
    (n, descRow (((data.find? fun c => c.1 = n).map Prod.snd).getD [])))

/-! ## Cross-tabulator (tab 2, lines 359–361)

`pd.crosstab(df[row_col], df[col_col])`: counts of each (row-value,
col-value) pair; a row of the dataframe with a missing entry in either
column is excluded from every cell. -/

/-- The row-wise missing-value filter shared by `pd.crosstab`,
`df[[group_col, value_col]].dropna()` and `df[[col_pre, col_post]].dropna()`:
a row of two columns survives exactly when both entries are present. -/
def someBoth {α β : Type} (r : Option α × Option β) : Option (α × β) :=
  match r with
  | (some a, some b) => some (a, b)
  | _ => none

/-- The (row-key, col-key) pairs of the rows where both columns are
present — the rows `pd.crosstab` actually counts. -/
def presentPairs (rows : List (Option String × Option String)) :
    List (String × String) :=
  rows.filterMap someBoth

/-- One cell of the contingency table. -/
def crosstabCell (rows : List (Option String × Option String))
    (r c : String) : ℕ :=
  (presentPairs rows).count (r, c)

/-- The distinct row keys of the table. -/
def rowKeys (rows : List (Option String × Option String)) : Finset String :=
  ((presentPairs rows).map Prod.fst).toFinset

/-- The distinct column keys of the table. -/
def colKeys (rows : List (Option String × Option String)) : Finset String :=
  ((presentPairs rows).map Prod.snd).toFinset

/-! ## Group comparator (tab 3, lines 387–489)

`df_filtered = df[[group_col, value_col]].dropna()`,
`groups = sorted(df_filtered[group_col].unique())`,
`group_count = len(groups)`, then `if group_count < 2: ... elif
group_count == 2: ... else: ...`. -/

/-- `df[[group_col, value_col]].dropna()`: the rows of the two selected
columns, keeping exactly those where both entries are present. -/
def dropnaGV (rows : List (Option String × Option ℚ)) : List (String × ℚ) :=
  rows.filterMap someBoth

/-- `sorted(df_filtered[group_col].unique())`: pandas `unique` keeps first
occurrences, `sorted` then sorts the labels. -/
def groupsOf (rows : List (Option String × Option ℚ)) : List String :=
  (((dropnaGV rows).map Prod.fst).dedup).insertionSort (· ≤ ·)

/-- `group_count = len(groups)`, recomputed after missing-value removal. -/
def groupCount (rows : List (Option String × Option ℚ)) : ℕ :=
  (groupsOf rows).length

/-- The three branches of tab 3. -/
inductive GroupRoute where
  | insufficient
  | twoGroup
  | multiGroup
deriving DecidableEq

/-- The branch tab 3 takes: `if group_count < 2: warning; elif group_count
== 2: two-group tests; else: multi-group tests`. -/
def groupRoute (rows : List (Option String × Option ℚ)) : GroupRoute :=
  if groupCount rows < 2 then .insufficient
  else if groupCount rows = 2 then .twoGroup
  else .multiGroup

/-- The members of one group: `df_filtered[df_filtered[group_col] == g][value_col]`. -/
def groupMembers (rows : List (Option String × Option ℚ)) (g : String) :
    List ℚ :=
  ((dropnaGV rows).filter fun r => r.1 = g).map Prod.snd

/-- The result rendered for a two-group test (lines 409–424): statistic,
p-value and the conclusion from the shared `if p < 0.05:` labeling. -/
structure TwoGroupResult where
  stat : PVal
  p : PVal
  conclusion : Conclusion
deriving DecidableEq

/-- The two-group branch: the chosen SciPy test (`ttest_ind` with
`equal_var=False`, or `mannwhitneyu` two-sided) returns `(stat, p)`; the
p-value computation involves a transcendental distribution function and is
passed as the parameter `test`.  The conclusion is `if p < 0.05:`. -/
def twoGroupAnalyze (test : List ℚ → List ℚ → PVal × PVal)
    (g1 g2 : List ℚ) : TwoGroupResult :=
  let r := test g1 g2
  ⟨r.1, r.2, conclude r.2⟩

/-- A post-hoc pairwise p-value matrix (Tukey HSD or Holm-adjusted Dunn),
indexed by group pairs.  Its values come from `scikit_posthocs` and are
opaque to the gating logic we verify. -/
abbrev PostHoc := List (String × String × PVal)

/-- What the multi-group branch renders: the omnibus conclusion and the
post-hoc matrix when one was produced. -/
structure MultiGroupResult where
  stat : PVal
  p : PVal
  conclusion : Conclusion
  posthoc : Option PostHoc

/-- ANOVA branch (lines 453–470): `stats.f_oneway` gives `(F, p)`; then
`if p < 0.05:` significant conclusion and `sp.posthoc_tukey` matrix,
`else` not-significant conclusion and no matrix. -/
def anovaBranch (stat p : PVal) (tukey : PostHoc) : MultiGroupResult :=
  if pvalLt p (5/100) then ⟨stat, p, .significant, some tukey⟩
  else ⟨stat, p, .notSignificant, none⟩

/-- Kruskal-Wallis branch (lines 472–489): `stats.kruskal` gives `(H, p)`;
then `if p < 0.05:` significant conclusion and `sp.posthoc_dunn(...,
p_adjust='holm')` matrix, `else` not-significant conclusion and no
matrix. -/
def kruskalBranch (stat p : PVal) (dunn : PostHoc) : MultiGroupResult :=
  if pvalLt p (5/100) then ⟨stat, p, .significant, some dunn⟩
  else ⟨stat, p, .notSignificant, none⟩

/-! ## Mann-Whitney U (SciPy `mannwhitneyu(g1, g2, alternative="two-sided")`)

SciPy ranks the pooled sample with midranks, computes
`U1 = R1 − n1(n1+1)/2`, `U2 = n1·n2 − U1`, takes `U = max(U1, U2)` for the
two-sided alternative, and turns `U` into a p-value through the exact
permutation distribution or the tie-corrected normal approximation.  Both
of those final maps depend only on `U`, the pair `{n1, n2}` (through
`n1·n2` and `n1+n2`) and the pooled tie structure; the map itself involves
transcendental functions, so it is the parameter `sf` below, while the
rank arithmetic is embedded. -/

/-- Number of pooled values strictly below `x`. -/
def countLt (x : ℚ) (l : List ℚ) : ℕ :=
  l.countP fun y => y < x

/-- Number of pooled values equal to `x`. -/
def countEq (x : ℚ) (l : List ℚ) : ℕ :=
  l.countP fun y => y = x

/-- Number of pooled values strictly above `x`. -/
def countGt (x : ℚ) (l : List ℚ) : ℕ :=
  l.countP fun y => x < y

/-- The midrank of `x` in the pooled sample (ties get the average rank),
as `scipy.stats.rankdata` assigns it. -/
def midrank (x : ℚ) (l : List ℚ) : ℚ :=
  countLt x l + (countEq x l + 1) / 2

/-- Sum of the midranks of the members of `g` within the pooled sample. -/
def rankSum (g pooled : List ℚ) : ℚ :=
  (g.map fun x => midrank x pooled).sum

/-- SciPy's `U1 = R1 − n1(n1+1)/2` for the first sample. -/
def mwuU1 (g1 g2 : List ℚ) : ℚ :=
  rankSum g1 (g1 ++ g2) - g1.length * (g1.length + 1) / 2

/-- SciPy's `U2 = n1·n2 − U1`. -/
def mwuU2 (g1 g2 : List ℚ) : ℚ :=
  g1.length * g2.length - mwuU1 g1 g2

/-- The tie term `Σ (t³ − t)` over the distinct pooled values, entering
the tie-corrected variance of the normal approximation. -/
def tieTerm (l : List ℚ) : ℚ :=
  ∑ v ∈ l.toFinset, ((l.count v : ℚ) ^ 3 - l.count v)

/-- The two-sided Mann-Whitney p-value: `sf` is SciPy's map from
`(max(U1,U2), n1·n2, n1+n2, tie term)` to the p-value (doubled normal
survival function with continuity correction, or the exact distribution);
everything `sf` consumes is computed here from the samples. -/
def mwuTwoSidedP (sf : ℚ → ℚ → ℚ → ℚ → ℚ) (g1 g2 : List ℚ) : ℚ :=
  sf (max (mwuU1 g1 g2) (mwuU2 g1 g2))
    (g1.length * g2.length)
    (g1.length + g2.length)
    (tieTerm (g1 ++ g2))

/-! ## Paired comparator (tab 4, lines 501–531)

`temp_df = df[[col_pre, col_post]].dropna()`: row-aligned pairs with any
row missing either value dropped; then a zero-pairs guard, the chosen
paired test, and the shared `if p < 0.05:` labeling. -/

/-- Row-aligned before/after pairs after the pairwise `dropna()`. -/
def alignPairs (before after : List (Option ℚ)) : List (ℚ × ℚ) :=
  (before.zip after).filterMap someBoth

/-- `scipy.stats.ttest_rel` on the aligned pairs: with fewer than two
pairs the sample variance of the differences is `0/0`, so SciPy returns
`(nan, nan)`; with two or more pairs the statistic and p-value come from
the t distribution, abstracted as the parameter `tt`. -/
def ttestRel (tt : List (ℚ × ℚ) → PVal × PVal) (pairs : List (ℚ × ℚ)) :
    PVal × PVal :=
  if pairs.length < 2 then (.nan, .nan) else tt pairs

/-- What tab 4 renders. -/
inductive PairedOutcome where
  | sameColumn
  | noValidData
  | result (stat p : PVal) (conclusion : Conclusion)
deriving DecidableEq

/-- Tab 4 with the paired t-test selected: same-column warning (line 503),
then `dropna`, then the `len(before) == 0` warning (line 510), then
`ttest_rel` and the `if p < 0.05:` labeling. -/
def pairedTOutcome (tt : List (ℚ × ℚ) → PVal × PVal)
    (preName postName : String) (before after : List (Option ℚ)) :
    PairedOutcome :=
  if preName = postName then .sameColumn
  else
    let pairs := alignPairs before after
    if pairs.length = 0 then .noValidData
    else
      let r := ttestRel tt pairs
      .result r.1 r.2 (conclude r.2)

/-! ## Concrete sample inputs

Small datasets used to evaluate the definitions at concrete points. -/

/-- A grouping/value column pair with two surviving groups, one row with a
missing group and one with a missing value. -/
def c1rows : List (Option String × Option ℚ) :=
  [(some "A", some 1), (some "B", some 2), (none, some 3), (some "B", none)]

/-- A two-column dataset: an all-numeric column and a string column. -/
def c7df : Dataset :=
  [("score", [Cell.num 1, Cell.missing]), ("dept", [Cell.str "A"])]

/-! ## Helper lemmas -/

/-- Counting a `filterMap` through the both-present filter counts the rows
with both entries present. -/
lemma length_filterMap_someBoth {α β : Type} (l : List (Option α × Option β)) :
    (l.filterMap someBoth).length = l.countP fun r => r.1.isSome && r.2.isSome := by
  induction l with
  | nil => rfl
  | cons r t ih =>
    rcases r with ⟨a, b⟩
    rcases a with _ | x <;> rcases b with _ | y <;>
      simp [someBoth, List.filterMap_cons, List.countP_cons, ih]

/-- `List.count` does not depend on the `BEq` instance as long as it is
lawful. -/
lemma count_eq_countP_dec {α : Type} [DecidableEq α] [inst : BEq α]
    [LawfulBEq α] (a : α) (l : List α) :
    @List.count α inst a l = l.countP fun b => b = a := by
  induction l with
  | nil => rfl
  | cons x t ih => simp [List.count_cons, List.countP_cons, ih]

/-- Summing the multiplicity of each distinct element recovers the length. -/
lemma list_toFinset_sum_count {α : Type} [DecidableEq α] [inst : BEq α]
    [LawfulBEq α] (l : List α) :
    (∑ a ∈ l.toFinset, @List.count α inst a l) = l.length := by
  have hbridge : ∀ a, @List.count α inst a l
      = @List.count α instBEqOfDecidableEq a l := by
    intro a
    rw [@count_eq_countP_dec α _ inst _ a l,
      @count_eq_countP_dec α _ instBEqOfDecidableEq _ a l]
  rw [Finset.sum_congr rfl fun a _ => hbridge a]
  simpa using Multiset.toFinset_sum_count_eq (l : Multiset α)

lemma presentPairs_cons_none_left (y : Option String)
    (t : List (Option String × Option String)) :
    presentPairs ((none, y) :: t) = presentPairs t := by
  simp [presentPairs, List.filterMap_cons, someBoth]

lemma presentPairs_cons_none_right (x : String)
    (t : List (Option String × Option String)) :
    presentPairs ((some x, none) :: t) = presentPairs t := by
  simp [presentPairs, List.filterMap_cons, someBoth]

lemma presentPairs_cons_some (x y : String)
    (t : List (Option String × Option String)) :
    presentPairs ((some x, some y) :: t) = (x, y) :: presentPairs t := by
  simp [presentPairs, List.filterMap_cons, someBoth]

/-- A contingency cell counts exactly the dataframe rows equal to its key
pair with both entries present. -/
lemma count_presentPairs (rows : List (Option String × Option String))
    (a b : String) :
    (presentPairs rows).count (a, b)
      = rows.countP fun r => r = (some a, some b) := by
  induction rows with
  | nil => rfl
  | cons r t ih =>
    rcases r with ⟨x, y⟩
    rcases x with _ | x <;> rcases y with _ | y
    · rw [presentPairs_cons_none_left, ih, List.countP_cons]
      simp
    · rw [presentPairs_cons_none_left, ih, List.countP_cons]
      simp
    · rw [presentPairs_cons_none_right, ih, List.countP_cons]
      simp
    · rw [presentPairs_cons_some, List.count_cons, ih, List.countP_cons]
      by_cases hxy : x = a ∧ y = b
      · simp [hxy.1, hxy.2]
      · have h1 : ¬((x, y) = (a, b)) := by simpa [Prod.ext_iff] using hxy
        have h2 : ¬((some x, some y)
            = ((some a : Option String), (some b : Option String))) := by
          simpa [Prod.ext_iff] using hxy
        simp [h1, h2]

lemma sum_map_ite_one {α : Type} (p : α → Prop) [DecidablePred p] (l : List α) :
    (l.map fun x => if p x then (1:ℕ) else 0).sum = l.countP fun x => p x := by
  induction l with
  | nil => rfl
  | cons a t ih => simp [List.countP_cons, ih, Nat.add_comm]

lemma countLt_cons (x a : ℚ) (t : List ℚ) :
    countLt x (a :: t) = countLt x t + if a < x then 1 else 0 := by
  simp [countLt, List.countP_cons]

lemma countGt_cons (x a : ℚ) (t : List ℚ) :
    countGt x (a :: t) = countGt x t + if x < a then 1 else 0 := by
  simp [countGt, List.countP_cons]

lemma countEq_cons (x a : ℚ) (t : List ℚ) :
    countEq x (a :: t) = countEq x t + if a = x then 1 else 0 := by
  simp [countEq, List.countP_cons]

/-- Every pooled value is below, above or equal to `x`. -/
lemma count_trichotomy (x : ℚ) (l : List ℚ) :
    countLt x l + countGt x l + countEq x l = l.length := by
  induction l with
  | nil => rfl
  | cons a t ih =>
    rw [countLt_cons, countGt_cons, countEq_cons]
    rcases lt_trichotomy a x with h | h | h
    · simp only [h, if_true]
      rw [if_neg (by exact not_lt.2 (le_of_lt h)), if_neg (by exact ne_of_lt h)]
      simp
      omega
    · simp [h]
      omega
    · rw [if_neg (by exact not_lt.2 (le_of_lt h)), if_pos h,
        if_neg (by exact ne_of_gt h)]
      simp
      omega

/-- Double counting the strict pairs: the number of (element, smaller
pooled element) pairs equals the number of (element, larger pooled
element) pairs. -/
lemma sum_countLt_eq_sum_countGt (l : List ℚ) :
    (l.map fun x => countLt x l).sum = (l.map fun x => countGt x l).sum := by
  induction l with
  | nil => rfl
  | cons a t ih =>
    simp only [List.map_cons, List.sum_cons]
    have hLt : (t.map fun x => countLt x (a :: t)).sum
        = (t.map fun x => countLt x t).sum + countGt a t := by
      rw [show (t.map fun x => countLt x (a :: t))
          = t.map fun x => countLt x t + if a < x then 1 else 0 from
        List.map_congr_left fun x _ => countLt_cons x a t]
      rw [List.sum_map_add, sum_map_ite_one (fun x => a < x) t]
      rfl
    have hGt : (t.map fun x => countGt x (a :: t)).sum
        = (t.map fun x => countGt x t).sum + countLt a t := by
      rw [show (t.map fun x => countGt x (a :: t))
          = t.map fun x => countGt x t + if x < a then 1 else 0 from
        List.map_congr_left fun x _ => countGt_cons x a t]
      rw [List.sum_map_add, sum_map_ite_one (fun x => x < a) t]
      rfl
    rw [hLt, hGt, countLt_cons, countGt_cons]
    simp [ih]
    omega

lemma sum_counts_sq (l : List ℚ) :
    2 * (l.map fun x => countLt x l).sum + (l.map fun x => countEq x l).sum
      = l.length * l.length := by
  have hconst : (l.map fun x => countLt x l + countGt x l + countEq x l)
      = l.map fun _ => l.length :=
    List.map_congr_left fun x _ => count_trichotomy x l
  have htri : (l.map fun x => countLt x l + countGt x l + countEq x l).sum
      = l.length * l.length := by
    rw [hconst]
    simp [List.map_const', List.sum_replicate, smul_eq_mul, Nat.mul_comm]
  rw [List.sum_map_add, List.sum_map_add] at htri
  have hsym := sum_countLt_eq_sum_countGt l
  omega

/-- The midranks of the whole pooled sample sum to `N(N+1)/2`, ties or
not — the identity behind `R1 + R2 = N(N+1)/2`. -/
lemma rankSum_self (l : List ℚ) :
    rankSum l l = (l.length : ℚ) * (l.length + 1) / 2 := by
  have hsq := sum_counts_sq l
  have hA : (l.map fun x => (countLt x l : ℚ)).sum
      = ((l.map fun x => countLt x l).sum : ℚ) := by
    rw [Nat.cast_list_sum, List.map_map]
    rfl
  have hE : (l.map fun x => (countEq x l : ℚ)).sum
      = ((l.map fun x => countEq x l).sum : ℚ) := by
    rw [Nat.cast_list_sum, List.map_map]
    rfl
  have hone : (l.map fun _ => (1:ℚ)).sum = (l.length : ℚ) := by
    simp [List.map_const', List.sum_replicate]
  have hsplit : rankSum l l
      = (l.map fun x => (countLt x l : ℚ)).sum
        + ((l.map fun x => (countEq x l : ℚ)).sum + l.length) / 2 := by
    unfold rankSum midrank
    rw [show (fun x => (countLt x l : ℚ) + ((countEq x l : ℚ) + 1) / 2)
        = fun x => (countLt x l : ℚ) + ((countEq x l : ℚ) + 1) * (1/2) by
      funext x
      ring]
    rw [List.sum_map_add, List.sum_map_mul_right, List.sum_map_add, hone]
    ring
  rw [hsplit, hA, hE]
  have hq : 2 * ((l.map fun x => countLt x l).sum : ℚ)
      + ((l.map fun x => countEq x l).sum : ℚ)
      = (l.length : ℚ) * (l.length : ℚ) := by
    exact_mod_cast hsq
  linear_combination hq / 2

lemma rankSum_append (g1 g2 pooled : List ℚ) :
    rankSum (g1 ++ g2) pooled = rankSum g1 pooled + rankSum g2 pooled := by
  simp [rankSum, List.map_append, List.sum_append]

/-- Midranks only see the pooled sample as a multiset. -/
lemma midrank_pool_comm (x : ℚ) (a b : List ℚ) :
    midrank x (a ++ b) = midrank x (b ++ a) := by
  simp [midrank, countLt, countEq, List.countP_append, Nat.add_comm]

lemma rankSum_pool_comm (g a b : List ℚ) :
    rankSum g (a ++ b) = rankSum g (b ++ a) :=
  congrArg List.sum (List.map_congr_left fun x _ => midrank_pool_comm x a b)

/-- The rank-sum identity `U1(g1,g2) + U1(g2,g1) = n1·n2`. -/
lemma mwuU_add (g1 g2 : List ℚ) :
    mwuU1 g1 g2 + mwuU1 g2 g1 = (g1.length : ℚ) * g2.length := by
  unfold mwuU1
  rw [rankSum_pool_comm g2 g2 g1]
  have h : rankSum g1 (g1 ++ g2) + rankSum g2 (g1 ++ g2)
      = rankSum (g1 ++ g2) (g1 ++ g2) := (rankSum_append g1 g2 (g1 ++ g2)).symm
  have h2 := rankSum_self (g1 ++ g2)
  have hN : (((g1 ++ g2).length : ℚ)) = (g1.length : ℚ) + g2.length := by
    push_cast [List.length_append]
    ring
  rw [hN] at h2
  have key : rankSum g1 (g1 ++ g2) + rankSum g2 (g1 ++ g2)
      = ((g1.length : ℚ) + g2.length) * ((g1.length : ℚ) + g2.length + 1) / 2 := by
    rw [h, h2]
  linear_combination key

/-- The tie term only sees the pooled sample as a multiset. -/
lemma tieTerm_comm (a b : List ℚ) : tieTerm (a ++ b) = tieTerm (b ++ a) := by
  unfold tieTerm
  have hset : (a ++ b).toFinset = (b ++ a).toFinset := by
    simp [List.toFinset_append, Finset.union_comm]
  rw [hset]
  refine Finset.sum_congr rfl fun v hv => ?_
  have hc : (a ++ b).count v = (b ++ a).count v := by
    simp [List.count_append, Nat.add_comm]
  rw [hc]

/-! ## Claim theorems -/

/-- C1: after dropping rows with a missing group or value, the Group
Comparator branches on the recomputed group count — below 2 signals
insufficient groups and runs no test, exactly 2 routes to the two-group
tests, 3 or more routes to the multi-group tests — and every group that
enters the count has at least one surviving member, so groups emptied by
missing-value removal are excluded before branching. -/
theorem C1_group_count_branching :
    ∀ rows : List (Option String × Option ℚ),
      (groupRoute rows = .insufficient ↔ groupCount rows < 2) ∧
      (groupRoute rows = .twoGroup ↔ groupCount rows = 2) ∧
      (groupRoute rows = .multiGroup ↔ 3 ≤ groupCount rows) ∧
      (∀ g ∈ groupsOf rows, ∃ v, (g, v) ∈ dropnaGV rows) := by
  intro rows
  have hmem : ∀ g ∈ groupsOf rows, ∃ v, (g, v) ∈ dropnaGV rows := by
    intro g hg
    have hper := List.perm_insertionSort (α := String) (· ≤ ·)
      (((dropnaGV rows).map Prod.fst).dedup)
    have hg' : g ∈ ((dropnaGV rows).map Prod.fst).dedup := hper.mem_iff.mp hg
    rcases List.mem_map.mp (List.mem_dedup.mp hg') with ⟨r, hr, rfl⟩
    exact ⟨r.2, hr⟩
  refine ⟨?_, ?_, ?_, hmem⟩ <;>
  · unfold groupRoute
    split_ifs with h1 h2 <;> simp_all <;> omega

/-- Witness for C1 on a concrete dataset: one row per group "A" and "B",
one row with a missing group and one with a missing value; the comparator
routes to the two-group branch and group "A" has a surviving member. -/
theorem C1_group_count_branching_witness :
    groupRoute c1rows = .twoGroup ∧ ∃ v, ("A", v) ∈ dropnaGV c1rows := by
  have hded : ((dropnaGV c1rows).map Prod.fst).dedup = ["A", "B"] := by decide
  have hper := List.perm_insertionSort (α := String) (· ≤ ·)
    (((dropnaGV c1rows).map Prod.fst).dedup)
  have hcount : groupCount c1rows = 2 := by
    unfold groupCount groupsOf
    rw [hper.length_eq, hded]
    rfl
  have hmemA : "A" ∈ groupsOf c1rows := by
    unfold groupsOf
    refine hper.mem_iff.mpr ?_
    rw [hded]
    decide
  exact ⟨(C1_group_count_branching c1rows).2.1.mpr hcount,
    (C1_group_count_branching c1rows).2.2.2 "A" hmemA⟩

/-- C2: in the multi-group branch a post-hoc matrix is produced if and
only if the omnibus p-value is strictly below 0.05 — a significant ANOVA
yields the Tukey matrix, a significant Kruskal-Wallis the Holm-adjusted
Dunn matrix, and a p-value of 0.05 or more (or NaN) yields none. -/
theorem C2_posthoc_gating :
    ∀ (stat : PVal) (q : ℚ) (tukey dunn : PostHoc),
      ((anovaBranch stat (.val q) tukey).posthoc = some tukey ↔ q < 5/100) ∧
      ((anovaBranch stat (.val q) tukey).posthoc = none ↔ 5/100 ≤ q) ∧
      ((kruskalBranch stat (.val q) dunn).posthoc = some dunn ↔ q < 5/100) ∧
      ((kruskalBranch stat (.val q) dunn).posthoc = none ↔ 5/100 ≤ q) ∧
      (anovaBranch stat .nan tukey).posthoc = none ∧
      (kruskalBranch stat .nan dunn).posthoc = none := by
  intro stat q tukey dunn
  rcases lt_or_le q (5/100) with h | h
  · simp [anovaBranch, kruskalBranch, pvalLt, h, not_le.2 h]
  · simp [anovaBranch, kruskalBranch, pvalLt, h, not_lt.2 h]

/-- C3: at every test site — two-group, ANOVA, Kruskal-Wallis and paired —
the conclusion is labeled significant exactly when the float comparison
`p < 0.05` holds, which for a real p-value is the strict comparison with
0.05 and for NaN is false. -/
theorem C3_threshold_consistency :
    ∀ (test : List ℚ → List ℚ → PVal × PVal) (g1 g2 : List ℚ)
      (stat p : PVal) (tukey dunn : PostHoc)
      (tt : List (ℚ × ℚ) → PVal × PVal) (preName postName : String)
      (before after : List (Option ℚ)),
      ((twoGroupAnalyze test g1 g2).conclusion = .significant ↔
        pvalLt (test g1 g2).2 (5/100) = true) ∧
      ((anovaBranch stat p tukey).conclusion = .significant ↔
        pvalLt p (5/100) = true) ∧
      ((kruskalBranch stat p dunn).conclusion = .significant ↔
        pvalLt p (5/100) = true) ∧
      (∀ s pv c, pairedTOutcome tt preName postName before after = .result s pv c →
        (c = .significant ↔ pvalLt pv (5/100) = true)) ∧
      (∀ q : ℚ, pvalLt (.val q) (5/100) = true ↔ q < 5/100) ∧
      pvalLt .nan (5/100) = false := by
  intro test g1 g2 stat p tukey dunn tt preName postName before after
  refine ⟨?_, ?_, ?_, ?_, ?_, rfl⟩
  · cases h : pvalLt (test g1 g2).2 (5/100) <;>
      simp [twoGroupAnalyze, conclude, h]
  · cases h : pvalLt p (5/100) <;> simp [anovaBranch, conclude, h]
  · cases h : pvalLt p (5/100) <;> simp [kruskalBranch, conclude, h]
  · intro s pv c hout
    simp only [pairedTOutcome] at hout
    split at hout
    · exact absurd hout (by simp)
    · split at hout
      · exact absurd hout (by simp)
      · simp only [PairedOutcome.result.injEq] at hout
        obtain ⟨hs, hp, hc⟩ := hout
        subst hp hc
        cases h : pvalLt (ttestRel tt (alignPairs before after)).2 (5/100) <;>
          simp [conclude, h]
  · intro q
    simp [pvalLt]

/-- Witness for C3 at a concrete paired run: one surviving pair makes
`ttest_rel` return NaN, and the outcome is labeled not significant
because `NaN < 0.05` is false. -/
theorem C3_threshold_consistency_witness :
    Conclusion.notSignificant = Conclusion.significant ↔
      pvalLt PVal.nan (5/100) = true :=
  (C3_threshold_consistency (fun _ _ => (.nan, .nan)) [] [] .nan .nan [] []
      (fun _ => (.nan, .nan)) "pre" "post" [some 1] [some 2]).2.2.2.1
    .nan .nan .notSignificant rfl

/-- C4: the Paired Comparator's alignment keeps exactly the rows where
both values are present — the aligned length equals the count of rows with
both entries, a pair is aligned exactly when its row carries both values —
and on before = [60, NaN, 58], after = [75, 70, NaN] the aligned set is
exactly the single pair (60, 75), so n = 1. -/
theorem C4_paired_alignment :
    (alignPairs [some 60, none, some 58] [some 75, some 70, none]
        = [(60, 75)] ∧
      (alignPairs [some 60, none, some 58] [some 75, some 70, none]).length
        = 1) ∧
    ∀ (before after : List (Option ℚ)),
      ((alignPairs before after).length
        = (before.zip after).countP fun r => r.1.isSome && r.2.isSome) ∧
      ∀ x y : ℚ,
        ((x, y) ∈ alignPairs before after ↔ (some x, some y) ∈ before.zip after) := by
  refine ⟨⟨rfl, rfl⟩, ?_⟩
  intro before after
  refine ⟨length_filterMap_someBoth _, ?_⟩
  intro x y
  constructor
  · intro h
    rcases List.mem_filterMap.mp h with ⟨⟨a, b⟩, hmem, hf⟩
    rcases a with _ | x' <;> rcases b with _ | y' <;> simp_all [someBoth]
  · intro h
    exact List.mem_filterMap.mpr ⟨(some x, some y), h, rfl⟩

/-- C5 counterexample: on [60, 55, 58, 70, 65] the summarizer's mean and
median are 61.6 and 60 as claimed, but the sample variance is exactly
35.3, and since (5.68 + 0.05)² < 35.3 the sample standard deviation
exceeds 5.73 — it is not ≈ 5.68. -/
theorem C5_std_claim_counterexample :
    (descRow [some 60, some 55, some 58, some 70, some 65]).mean = 308/5 ∧
    (descRow [some 60, some 55, some 58, some 70, some 65]).median = 60 ∧
    (descRow [some 60, some 55, some 58, some 70, some 65]).var
      = .val (353/10) ∧
    ((568:ℚ)/100 + 5/100) ^ 2 < 353/10 := by
  have hv : colValues [some 60, some 55, some 58, some 70, some 65]
      = [60, 55, 58, 70, 65] := rfl
  refine ⟨?_, ?_, ?_, by norm_num⟩
  · norm_num [descRow, hv, listMean]
  · norm_num [descRow, hv, medianQ, quantile, List.insertionSort,
      List.orderedInsert, Rat.floor_def', List.getD,
      show Int.toNat 2 = 2 from rfl]
  · norm_num [descRow, hv, smpVar, listMean]

/-- C5 amended: on [60, 55, 58, 70, 65] the summarizer returns mean 61.6,
median 60, and a sample (n−1) variance of exactly 35.3, whose square root
lies strictly between 5.93 and 5.95 — the sample standard deviation is
≈ 5.94, not 5.68. -/
theorem C5_descriptive_values :
    (descRow [some 60, some 55, some 58, some 70, some 65]).mean = 308/5 ∧
    (descRow [some 60, some 55, some 58, some 70, some 65]).median = 60 ∧
    (descRow [some 60, some 55, some 58, some 70, some 65]).var
      = .val (353/10) ∧
    ((593:ℚ)/100) ^ 2 < 353/10 ∧ (353:ℚ)/10 < ((595:ℚ)/100) ^ 2 := by
  have hv : colValues [some 60, some 55, some 58, some 70, some 65]
      = [60, 55, 58, 70, 65] := rfl
  refine ⟨?_, ?_, ?_, by norm_num, by norm_num⟩
  · norm_num [descRow, hv, listMean]
  · norm_num [descRow, hv, medianQ, quantile, List.insertionSort,
      List.orderedInsert, Rat.floor_def', List.getD,
      show Int.toNat 2 = 2 from rfl]
  · norm_num [descRow, hv, smpVar, listMean]

/-- C6: the contingency table counts only rows with both entries present —
each cell equals the number of rows exactly matching its key pair — and
the sum over the full key grid equals the number of rows where both
columns are present. -/
theorem C6_crosstab_total :
    ∀ rows : List (Option String × Option String),
      (∑ r ∈ rowKeys rows, ∑ c ∈ colKeys rows, crosstabCell rows r c)
        = (presentPairs rows).length ∧
      ((presentPairs rows).length
        = rows.countP fun r => r.1.isSome && r.2.isSome) ∧
      (∀ a b, crosstabCell rows a b
        = rows.countP fun r => r = (some a, some b)) := by
  intro rows
  refine ⟨?_, length_filterMap_someBoth rows,
    fun a b => count_presentPairs rows a b⟩
  have h1 : (∑ r ∈ rowKeys rows, ∑ c ∈ colKeys rows, crosstabCell rows r c)
      = ∑ p ∈ rowKeys rows ×ˢ colKeys rows, (presentPairs rows).count p := by
    rw [Finset.sum_product]
    rfl
  have hsub : (presentPairs rows).toFinset ⊆ rowKeys rows ×ˢ colKeys rows := by
    intro p hp
    have hmem := List.mem_toFinset.mp hp
    refine Finset.mem_product.mpr ⟨?_, ?_⟩
    · exact List.mem_toFinset.mpr (List.mem_map.mpr ⟨p, hmem, rfl⟩)
    · exact List.mem_toFinset.mpr (List.mem_map.mpr ⟨p, hmem, rfl⟩)
  have h2 : (∑ p ∈ (presentPairs rows).toFinset, (presentPairs rows).count p)
      = ∑ p ∈ rowKeys rows ×ˢ colKeys rows, (presentPairs rows).count p := by
    refine Finset.sum_subset hsub ?_
    intro p hp hnp
    exact List.count_eq_zero.mpr fun hmem => hnp (List.mem_toFinset.mpr hmem)
  rw [h1, ← h2]
  exact list_toFinset_sum_count (presentPairs rows)

/-- C7: the Column Classifier partitions the column names — no name with
distinct column names lands in both sets, every column name lands in one
of the two, a column whose non-missing cells all parsed as numbers is
numeric and any other column is categorical — and the empty dataset gives
two empty sets. -/
theorem C7_column_classifier :
    ∀ df : Dataset,
      ((df.map Prod.fst).Nodup →
        ∀ n, ¬(n ∈ numericCols df ∧ n ∈ catCols df)) ∧
      (∀ n, n ∈ df.map Prod.fst ↔ n ∈ numericCols df ∨ n ∈ catCols df) ∧
      (∀ name cells, (name, cells) ∈ df → colIsNumeric cells = true →
        name ∈ numericCols df) ∧
      (∀ name cells, (name, cells) ∈ df → colIsNumeric cells = false →
        name ∈ catCols df) ∧
      numericCols [] = [] ∧ catCols [] = [] := by
  intro df
  refine ⟨?_, ?_, ?_, ?_, rfl, rfl⟩
  · rintro hnodup n ⟨hn, hc⟩
    rcases List.mem_map.mp hn with ⟨c1, hc1, h1⟩
    rcases List.mem_map.mp hc with ⟨c2, hc2, h2⟩
    have hm1 := (List.mem_filter.mp hc1).1
    have hp1 := (List.mem_filter.mp hc1).2
    have hm2 := (List.mem_filter.mp hc2).1
    have hp2 := (List.mem_filter.mp hc2).2
    have heq : c1 = c2 :=
      List.inj_on_of_nodup_map hnodup hm1 hm2 (h1.trans h2.symm)
    subst heq
    simp_all
  · intro n
    constructor
    · intro hn
      rcases List.mem_map.mp hn with ⟨c, hcmem, rfl⟩
      cases hp : colIsNumeric c.2
      · right
        exact List.mem_map.mpr ⟨c, List.mem_filter.mpr ⟨hcmem, by simp [hp]⟩, rfl⟩
      · left
        exact List.mem_map.mpr ⟨c, List.mem_filter.mpr ⟨hcmem, by simp [hp]⟩, rfl⟩
    · intro hn
      rcases hn with hn | hn <;>
      · rcases List.mem_map.mp hn with ⟨c, hcmem, rfl⟩
        exact List.mem_map.mpr ⟨c, (List.mem_filter.mp hcmem).1, rfl⟩
  · intro name cells hmem hnum
    exact List.mem_map.mpr
      ⟨(name, cells), List.mem_filter.mpr ⟨hmem, by simp [hnum]⟩, rfl⟩
  · intro name cells hmem hnum
    exact List.mem_map.mpr
      ⟨(name, cells), List.mem_filter.mpr ⟨hmem, by simp [hnum]⟩, rfl⟩

/-- Witness for C7 on a concrete two-column dataset: the all-numeric
column "score" is classified numeric and not also categorical. -/
theorem C7_column_classifier_witness :
    ¬("score" ∈ numericCols c7df ∧ "score" ∈ catCols c7df) ∧
      "score" ∈ numericCols c7df := by
  constructor
  · exact (C7_column_classifier c7df).1 (by decide) "score"
  · exact (C7_column_classifier c7df).2.2.1 "score" [Cell.num 1, Cell.missing]
      (List.mem_cons_self _ _) rfl

/-- C8 counterexample: with an empty column selection tab 1 renders
nothing at all — it does not fail with an `EmptySelection` error. -/
theorem C8_empty_selection_counterexample :
    descTab [] [("x", [some 1])] = .noOutput ∧
    descTab [] [("x", [some 1])]
      ≠ DescDisplay.errorMsg ErrorKind.emptySelection := by
  exact ⟨rfl, by simp [descTab]⟩

/-- C8 amended: for every dataset, an empty column selection makes the
summarizer produce no output — no table and no error message of any
kind. -/
theorem C8_empty_selection_no_output :
    ∀ data : List (String × List (Option ℚ)),
      descTab [] data = .noOutput ∧ ∀ e, descTab [] data ≠ .errorMsg e := by
  intro data
  constructor
  · rfl
  · intro e
    simp [descTab]

/-- C9: swapping the two samples leaves the two-sided Mann-Whitney
p-value unchanged for every survival function `sf`, because the swap
exchanges U1 and U2 (by the rank-sum identity U1 + U1-swapped = n1·n2)
while `max(U1,U2)`, n1·n2, n1+n2 and the pooled tie term are all
invariant. -/
theorem C9_mannwhitney_swap :
    ∀ (sf : ℚ → ℚ → ℚ → ℚ → ℚ) (g1 g2 : List ℚ),
      mwuTwoSidedP sf g1 g2 = mwuTwoSidedP sf g2 g1 := by
  intro sf g1 g2
  unfold mwuTwoSidedP
  have hU : mwuU2 g1 g2 = mwuU1 g2 g1 := by
    unfold mwuU2
    linarith [mwuU_add g1 g2]
  have hU2 : mwuU2 g2 g1 = mwuU1 g1 g2 := by
    unfold mwuU2
    have := mwuU_add g2 g1
    push_cast at this ⊢
    linarith
  rw [hU, hU2, max_comm, tieTerm_comm]
  rw [mul_comm ((g1.length : ℚ)) ((g2.length : ℚ)),
    add_comm ((g1.length : ℚ)) ((g2.length : ℚ))]

/-- C10: when exactly one pair survives alignment and the two columns
differ, the paired branch reports no error: the only guard checks for
zero pairs, the t-test on one pair returns NaN statistic and NaN p-value,
and the conclusion is "not significant" because `NaN < 0.05` is false. -/
theorem C10_single_pair_no_error :
    ∀ (tt : List (ℚ × ℚ) → PVal × PVal) (preName postName : String)
      (before after : List (Option ℚ)),
      preName ≠ postName →
      (alignPairs before after).length = 1 →
      pairedTOutcome tt preName postName before after
        = .result .nan .nan .notSignificant := by
  intro tt preName postName before after hne hlen
  simp [pairedTOutcome, hne, hlen, ttestRel, conclude, pvalLt]

/-- Witness for C10: concrete before/after columns with exactly one
surviving pair produce the NaN result labeled not significant, whatever
values the t-distribution back end would return on larger samples. -/
theorem C10_single_pair_no_error_witness :
    pairedTOutcome (fun _ => (.val 0, .val 0)) "pre" "post"
      [some 60, none] [some 75, some 70]
      = .result .nan .nan .notSignificant := by
  apply C10_single_pair_no_error
  · decide
  · decide

end Anketo
